import Mathlib

/-!
# Verification of the kitty encrypted repository engine

A shallow embedding, in Lean 4, of the core of the `kitty` configuration
tracker (Rust): the crypto engine (`src/commands/init.rs`), the repository
metadata model, the add/diff/restore operations
(`src/commands/add.rs`, `src/commands/diff.rs`, `src/commands/restore.rs`),
the salt/storage-marker helpers (`src/utils/file.rs`) and the
memory/flat-file storage backend (`src/storage/memory.rs`).

Bytes are modelled as `Nat`, byte strings as `List Nat`, timestamps
(`DateTime<Utc>`) as `Nat`.  Fallible Rust code returning
`Result<T, KittyError>` becomes `Except KittyError T`; a Rust panic is
modelled as `Option.none` of an enclosing `Option`.

External crates (`ring::pbkdf2`, `chacha20poly1305`, `serde_json`,
`blake3`, the OS filesystem and SQLite) are not part of the repository
source; where a claim depends on them they are modelled from the spec's
contract for them (each such definition carries a doc comment saying so).
-/

namespace Kitty

/-! ## Injective encodings (used by the idealised external primitives) -/

/-- Injective encoding of a byte list into a natural number, via `Nat.pair`. -/
def encodeList : List Nat → Nat
  | [] => 0
  | a :: l => Nat.pair a (encodeList l) + 1

/-- Left inverse of `encodeList`. -/
def decodeListN : Nat → List Nat
  | 0 => []
  | n + 1 => (Nat.unpair n).1 :: decodeListN (Nat.unpair n).2
decreasing_by simpa using Nat.lt_succ_of_le (Nat.unpair_right_le n)

/-- One more than the number of Unicode scalar values: each `Char.toNat`
is `< 1114112`, so `c.toNat + 1` is a non-zero digit `< CHAR_BASE`. -/
def CHAR_BASE : Nat := 1114113

/-- Injective base-`CHAR_BASE` packing of a character list (least
significant digit first; every digit non-zero, so no padding ambiguity). -/
def strPackList : List Char → Nat
  | [] => 0
  | c :: cs => c.toNat + 1 + CHAR_BASE * strPackList cs

/-- Injective encoding of a string into a natural number. -/
def encodeStr (s : String) : Nat := strPackList s.toList

/-- Unpack `count` characters from a base-`CHAR_BASE` packed number
(the character count is carried alongside, so recursion is structural). -/
def strUnpack : Nat → Nat → List Char
  | 0, _ => []
  | count + 1, n => Char.ofNat (n % CHAR_BASE - 1) :: strUnpack count (n / CHAR_BASE)

/-! ## Error type

`KittyError` from `src/commands/init.rs` (enum `KittyError`), extended with
the `Database` and `StorageType` variants that `src/storage/sqlite.rs` and
`src/utils/file.rs` construct (the repository mixes revisions of the same
module; those two constructors appear only at use sites).  Error payloads
(`io::Error`, formatted messages) are modelled as their display strings. -/

inductive KittyError where
  | Io (msg : String)
  | RepositoryExists
  | RepositoryNotFound
  | InvalidPassword
  | Encryption (msg : String)
  | Decryption (msg : String)
  | FileNotTracked (path : String)
  | PrivilegeRequired (path : String)
  | Serialization (msg : String)
  | HexDecoding (msg : String)
  | Database (msg : String)
  | StorageType (msg : String)
deriving DecidableEq, Repr

/-- `true` exactly on `Except.ok` results. -/
def exceptIsOk {α : Type} : Except KittyError α → Bool
  | .ok _ => true
  | .error _ => false

/-- `true` exactly on results that are an error of kind `KittyError::Decryption`. -/
def isDecryptionErr {α : Type} : Except KittyError α → Bool
  | .error (.Decryption _) => true
  | _ => false

/-! ## Crypto engine (`src/commands/init.rs`, lines 18-152) -/

def SALT_LEN : Nat := 16
def NONCE_LEN : Nat := 12
def KEY_LEN : Nat := 32
def PBKDF2_ITERATIONS : Nat := 100000

/-- Modelled from the spec (§4.1 `derive`): the external `ring::pbkdf2`
PBKDF2-HMAC-SHA256 derivation, idealised as a deterministic injective
function of the `(salt, password)` pair ("same `(password, salt)` always
yields the same key; different salts MUST yield unlinkable keys").
Argument order follows the call site `pbkdf2::derive(_, _, &salt_array,
password.as_bytes(), &mut key)`. -/
def pbkdf2_derive (salt : List Nat) (password : String) : Nat :=
  Nat.pair (encodeList salt) (encodeStr password)

/-- The `Crypto` struct of `init.rs` (`salt: [u8; SALT_LEN]`, `key: [u8;
KEY_LEN]`); the derived key is represented by the idealised
`pbkdf2_derive` output. -/
structure Crypto where
  salt : List Nat
  key : Nat
deriving DecidableEq, Repr

/-- Modelled from the spec (§4.1, AEAD glossary): the authentication tag the
external `chacha20poly1305` AEAD attaches, idealised as a perfect tag that
pins down the `(key, nonce, message)` triple. -/
def tagOf (key : Nat) (nonce msg : List Nat) : Nat :=
  Nat.pair key (Nat.pair (encodeList nonce) (encodeList msg))

/-- Modelled from the spec (§4.1 `seal`): `ChaCha20Poly1305::encrypt` of the
external crate, idealised: the ciphertext carries the plaintext together
with the perfect tag `tagOf key nonce plaintext` (secrecy is not modelled;
the claims are about round-trip and authentication behaviour). -/
def chacha_encrypt (key : Nat) (nonce pt : List Nat) : List Nat :=
  pt ++ [tagOf key nonce pt]

/-- Modelled from the spec (§4.1 `open`): `ChaCha20Poly1305::decrypt` of the
external crate, idealised: strip the trailing tag and verify it; any
mismatch (wrong key, wrong nonce, modified body, missing tag) fails. -/
def chacha_open (key : Nat) (nonce ct : List Nat) : Option (List Nat) :=
  match ct.getLast? with
  | none => none
  | some t => if t = tagOf key nonce ct.dropLast then some ct.dropLast else none

namespace Crypto

/-- `Crypto::from_password_and_salt` (`init.rs` lines 96-113).  The source
copies the incoming slice into a fixed `[u8; SALT_LEN]` with
`copy_from_slice`, which panics when the slice length differs from
`SALT_LEN`; the panic is modelled as `none`.  The Rust signature returns
plain `Self` — there is no error path. -/
def from_password_and_salt (password : String) (salt : List Nat) : Option Crypto :=
  if salt.length = SALT_LEN then
    some { salt := salt, key := pbkdf2_derive salt password }
  else
    none

/-- The encrypted blob `Crypto::encrypt` produces for a given drawn nonce:
the random nonce prepended to the AEAD ciphertext (`init.rs` lines
115-133).  The nonce, drawn from `OsRng` in the source, is passed
explicitly. -/
def encryptBytes (c : Crypto) (nonce data : List Nat) : List Nat :=
  nonce ++ chacha_encrypt c.key nonce data

/-- `Crypto::encrypt` (`init.rs` lines 115-133).  The underlying AEAD
encryption of the external crate only fails on overlong plaintexts, which
the idealised model does not have, so the result is always `ok`. -/
def encrypt (c : Crypto) (nonce data : List Nat) : Except KittyError (List Nat) :=
  .ok (encryptBytes c nonce data)

/-- `Crypto::decrypt` (`init.rs` lines 135-151): reject blobs shorter than
`NONCE_LEN`, split the leading nonce, AEAD-open the remainder.  The string
in the second error is the display of the external crate's opaque
`aead::Error`. -/
def decrypt (c : Crypto) (data : List Nat) : Except KittyError (List Nat) :=
  if data.length < NONCE_LEN then
    .error (KittyError.Decryption "Invalid ciphertext")
  else
    match chacha_open c.key (data.take NONCE_LEN) (data.drop NONCE_LEN) with
    | some pt => .ok pt
    | none => .error (KittyError.Decryption "aead::Error")

end Crypto

/-! ## Hex decoding (`hex::decode` on the hex-encoded salt strings)

Modelled from the spec (§6: "a salt record (fixed-length random bytes,
hex-encoded)"): the external `hex` crate's `decode`, which maps pairs of
hex digits to bytes and fails on a non-hex character or an odd length. -/

/-- Value of one hex digit, `none` for a non-hex character. -/
def hexDigitVal (c : Char) : Option Nat :=
  if '0' ≤ c ∧ c ≤ '9' then some (c.toNat - 48)
  else if 'a' ≤ c ∧ c ≤ 'f' then some (c.toNat - 87)
  else if 'A' ≤ c ∧ c ≤ 'F' then some (c.toNat - 55)
  else none

/-- `hex::decode` on a list of characters. -/
def hexDecodeChars : List Char → Option (List Nat)
  | [] => some []
  | [_] => none
  | hi :: lo :: rest =>
    match hexDigitVal hi, hexDigitVal lo, hexDecodeChars rest with
    | some h, some l, some bytes => some ((16 * h + l) :: bytes)
    | _, _, _ => none

/-- `hex::decode` of a string into bytes. -/
def hexDecode (s : String) : Option (List Nat) := hexDecodeChars s.toList

/-! ## String helpers (models of `str::trim`, `str::contains`) -/

/-- Is `pat` a leading block of `l`? (model of a prefix test on strings) -/
def listHasPre : List Char → List Char → Bool
  | [], _ => true
  | _ :: _, [] => false
  | a :: as, b :: bs => a = b && listHasPre as bs

/-- Does `l` contain `pat` as a contiguous block? -/
def listHasSub (pat : List Char) : List Char → Bool
  | [] => pat.isEmpty
  | b :: bs => listHasPre pat (b :: bs) || listHasSub pat bs

/-- Model of Rust `haystack.contains(needle)` (substring containment). -/
def strContains (haystack needle : String) : Bool :=
  listHasSub needle.toList haystack.toList

/-- Model of Rust `str::trim`: strip whitespace from both ends. -/
def strTrim (s : String) : String :=
  String.mk
    (((s.toList.dropWhile Char.isWhitespace).reverse.dropWhile Char.isWhitespace).reverse)

/-! ## Repository model (`src/commands/init.rs`, lines 57-71) -/

/-- The `TrackedFile` struct of `init.rs`. -/
structure TrackedFile where
  original_path : String
  repo_path : String
  added_at : Nat
  last_updated : Nat
  hash : String
deriving DecidableEq, Repr, Inhabited

/-- The `Repository` struct of `init.rs` (`salt` is a hex-encoded string). -/
structure Repository where
  created_at : Nat
  salt : String
  files : List TrackedFile
deriving DecidableEq, Repr, Inhabited

/-! ## Serialization (external `serde_json`)

Modelled from the spec (§4.2/"Repository Model — decode/encode"): the
external `serde_json` round-trip, idealised as an injective encoding of a
`Repository` into a byte sequence together with its parser. -/

/-- A string as a length-prefixed packed field of the byte sequence. -/
def serStr (s : String) : List Nat := [s.toList.length, encodeStr s]

/-- Parse one length-prefixed string field; returns it with the remaining
bytes. -/
def parseStr (l : List Nat) : Option (String × List Nat) :=
  match l with
  | count :: packed :: rest => some (String.mk (strUnpack count packed), rest)
  | _ => none

/-- One `TrackedFile` as a field sequence. -/
def serTF (f : TrackedFile) : List Nat :=
  serStr f.original_path ++ serStr f.repo_path ++ [f.added_at, f.last_updated]
    ++ serStr f.hash

/-- Parse one `TrackedFile`; returns it with the remaining bytes. -/
def parseTF (l : List Nat) : Option (TrackedFile × List Nat) :=
  match parseStr l with
  | none => none
  | some (original_path, l1) =>
    match parseStr l1 with
    | none => none
    | some (repo_path, l2) =>
      match l2 with
      | added_at :: last_updated :: l3 =>
        match parseStr l3 with
        | none => none
        | some (hash, l4) =>
          some ({ original_path := original_path, repo_path := repo_path,
                  added_at := added_at, last_updated := last_updated,
                  hash := hash }, l4)
      | _ => none

/-- Parse a count-prefixed run of `TrackedFile`s. -/
def parseTFs : Nat → List Nat → Option (List TrackedFile × List Nat)
  | 0, l => some ([], l)
  | count + 1, l =>
    match parseTF l with
    | none => none
    | some (f, rest) =>
      match parseTFs count rest with
      | none => none
      | some (fs, rest') => some (f :: fs, rest')

/-- Modelled from the spec: `serde_json::to_string(&repository).as_bytes()`,
idealised as an injective field-sequence encoding. -/
def serializeRepo (r : Repository) : List Nat :=
  [r.created_at] ++ serStr r.salt ++ [r.files.length]
    ++ (r.files.map serTF).flatten

/-- Modelled from the spec: `serde_json::from_slice`, the parser inverse to
`serializeRepo`; a byte sequence it cannot make sense of fails. -/
def parseRepo (l : List Nat) : Option Repository :=
  match l with
  | [] => none
  | created_at :: rest =>
    match parseStr rest with
    | none => none
    | some (salt, rest2) =>
      match rest2 with
      | count :: rest3 =>
        match parseTFs count rest3 with
        | some (files, []) =>
          some { created_at := created_at, salt := salt, files := files }
        | _ => none
      | [] => none

/-- Modelled from the spec (§3 `content_hash`): the external `blake3` content
hash, idealised as an injective digest string of the content bytes. -/
def blake3_hash (content : List Nat) : String :=
  toString (encodeList content)

/-! ## Repository helpers (`src/utils/file.rs`)

The relevant filesystem state is passed explicitly: `marker` is the content
of the `storage.type` file (or `none` when absent), `saltFile` the content
of `salt.key`, `configEnc` the bytes of `config.enc`. -/

/-- `get_storage_type` (`file.rs` lines 16-33): default to `"file"` when the
marker file is absent; trim and validate an existing marker. -/
def get_storage_type (marker : Option String) : Except KittyError String :=
  match marker with
  | none => .ok "file"
  | some raw =>
    let storage_type := strTrim raw
    if storage_type = "file" ∨ storage_type = "sqlite" then .ok storage_type
    else .error (KittyError.StorageType ("Invalid storage type: " ++ storage_type))

/-- The hard-coded fallback salt string of `get_repository_salt`
(`file.rs` line 58): 64 zero characters, i.e. 32 zero bytes once
hex-decoded. -/
def placeholderSalt : String :=
  "0000000000000000000000000000000000000000000000000000000000000000"

/-- `get_repository_salt` (`file.rs` lines 35-59): prefer the `salt.key`
file; otherwise fall back to the encrypted config, failing when it is
shorter than 32 bytes and returning the hard-coded placeholder salt
otherwise.  A missing `config.enc` is the `fs::read` I/O error. -/
def get_repository_salt (saltFile : Option String) (configEnc : Option (List Nat)) :
    Except KittyError String :=
  match saltFile with
  | some s => .ok s
  | none =>
    match configEnc with
    | none => .error (KittyError.Io "No such file or directory: config.enc")
    | some encrypted_config =>
      if encrypted_config.length < 32 then
        .error (KittyError.Decryption "Invalid repository configuration")
      else
        .ok placeholderSalt

/-! ## Add (`src/commands/add.rs`, lines 109-190)

The metadata update of `add_file` after the repository has been loaded:
`position` finds the first record whose `original_path` equals the resolved
path; a hit updates `last_updated`/`hash` in place (the body is rewritten
under the record's existing `repo_path`); a miss appends a new record under
a fresh `files/<uuid>` key.  The freshly drawn UUID is passed as `file_id`.
The recursion below walks to the first matching record exactly as
`position` does. -/

/-- Core list transformation of `add_file`: returns the updated file list
together with the `repo_path` the encrypted body is written under
(file-based storage) and whether an existing entry was updated. -/
def add_file_entry (files : List TrackedFile) (file_path_str hash : String)
    (now : Nat) (file_id : String) : List TrackedFile × String × Bool :=
  match files with
  | [] =>
    ([{ original_path := file_path_str, repo_path := "files/" ++ file_id,
        added_at := now, last_updated := now, hash := hash }],
     "files/" ++ file_id, false)
  | f :: rest =>
    if f.original_path = file_path_str then
      ({ f with last_updated := now, hash := hash } :: rest, f.repo_path, true)
    else
      let r := add_file_entry rest file_path_str hash now file_id
      (f :: r.1, r.2)

/-- `add_file`'s repository-level metadata update (`add.rs` lines 109-162). -/
def add_file_meta (repository : Repository) (file_path_str hash : String)
    (now : Nat) (file_id : String) : Repository × String × Bool :=
  let r := add_file_entry repository.files file_path_str hash now file_id
  ({ repository with files := r.1 }, r.2)

/-- `existing_file_index` of `add.rs` (line 111): index of the first tracked
record with the given `original_path`. -/
def existing_file_index (repository : Repository) (file_path_str : String) : Option Nat :=
  repository.files.findIdx? (fun f => f.original_path = file_path_str)

/-- The `repo_path` under which the SQLite branch of `add_file` stores the
encrypted body (`add.rs` lines 174-182): the existing record's path when
the file was already tracked, and `repository.files[0].repo_path` — the
head of the *updated* list — for a new file. -/
def add_file_sqlite_body_key (repoAfter : Repository) (existing_index : Option Nat) : String :=
  match existing_index with
  | some index => ((repoAfter.files.getD index default)).repo_path
  | none => ((repoAfter.files.getD 0 default)).repo_path

/-! ## Diff (`src/commands/diff.rs`) -/

/-- `similar::ChangeTag`. -/
inductive ChangeTag where
  | Equal
  | Delete
  | Insert
deriving DecidableEq, Repr

/-- Length of a longest common subsequence (the alignment measure of the
external `similar::TextDiff` line diff), with explicit structural fuel
(the fuel `xs.length + ys.length` supplied by `lcsLen` never runs out). -/
def lcsLenGo : Nat → List String → List String → Nat
  | _, [], _ => 0
  | _, _ :: _, [] => 0
  | 0, _ :: _, _ :: _ => 0
  | fuel + 1, x :: xs, y :: ys =>
    if x = y then lcsLenGo fuel xs ys + 1
    else max (lcsLenGo fuel xs (y :: ys)) (lcsLenGo fuel (x :: xs) ys)

/-- Length of a longest common subsequence of two line lists. -/
def lcsLen (xs ys : List String) : Nat := lcsLenGo (xs.length + ys.length) xs ys

/-- Fuel-driven core of `diffLines`. -/
def diffLinesGo : Nat → List String → List String → List (ChangeTag × String)
  | _, [], ys => ys.map (fun y => (ChangeTag.Insert, y))
  | _, x :: xs, [] => (x :: xs).map (fun x => (ChangeTag.Delete, x))
  | 0, _ :: _, _ :: _ => []
  | fuel + 1, x :: xs, y :: ys =>
    if x = y then (ChangeTag.Equal, x) :: diffLinesGo fuel xs ys
    else if lcsLen xs (y :: ys) ≥ lcsLen (x :: xs) ys then
      (ChangeTag.Delete, x) :: diffLinesGo fuel xs (y :: ys)
    else
      (ChangeTag.Insert, y) :: diffLinesGo fuel (x :: xs) ys

/-- Modelled from the spec (§4.3: "longest-common-subsequence-style
alignment producing a sequence of unchanged/added/removed line spans, in
document order"): `TextDiff::from_lines(...).iter_all_changes()` of the
external `similar` crate, as an LCS line diff emitting one tagged change
per line (the fuel `xs.length + ys.length` never runs out). -/
def diffLines (xs ys : List String) : List (ChangeTag × String) :=
  diffLinesGo (xs.length + ys.length) xs ys

/-- `DiffOptions` (`diff.rs` lines 15-30). -/
structure DiffOptions where
  path : Option String
  only_changed : Bool
  summary : Bool
  context : Bool
  context_lines : Nat
deriving DecidableEq, Repr

/-- `DiffResult` (`diff.rs` lines 45-51). -/
structure DiffResult where
  path : String
  has_changes : Bool
  additions : Nat
  deletions : Nat
  diff_text : String
deriving DecidableEq, Repr

/-- Accumulator of the second pass of `diff_single_file`: the `additions`,
`deletions` and `diff_text` locals of `diff.rs` lines 87-89. -/
structure DiffAcc where
  additions : Nat
  deletions : Nat
  diff_text : String
deriving DecidableEq, Repr

/-- The second pass of `diff_single_file` (`diff.rs` lines 114-132): count
additions and deletions and accumulate the rendered text, including
unchanged lines only when `options.context` is set (colour codes of the
rendering are not modelled). -/
def diffSecondPass (options : DiffOptions) : List (ChangeTag × String) → DiffAcc
  | [] => { additions := 0, deletions := 0, diff_text := "" }
  | (tag, line) :: rest =>
    let r := diffSecondPass options rest
    match tag with
    | ChangeTag.Delete =>
      { r with deletions := r.deletions + 1, diff_text := "-" ++ line ++ r.diff_text }
    | ChangeTag.Insert =>
      { r with additions := r.additions + 1, diff_text := "+" ++ line ++ r.diff_text }
    | ChangeTag.Equal =>
      if options.context then { r with diff_text := " " ++ line ++ r.diff_text } else r

/-- `diff_single_file` (`diff.rs` lines 54-143).  Filesystem reads are
passed explicitly: `currentRead` is the result of
`fs::read_to_string(original_path)` split into lines (`none` = unreadable),
`storedResult` the stored snapshot after read + decrypt, split into lines.
A missing live file reports "changed, no diff"; otherwise the verdict
comes from scanning the change sequence for any `Delete`/`Insert`. -/
def diff_single_file (file : TrackedFile) (currentRead : Option (List String))
    (storedResult : Except KittyError (List String)) (options : DiffOptions) :
    Except KittyError DiffResult :=
  match currentRead with
  | none =>
    .ok { path := file.original_path, has_changes := true, additions := 0, deletions := 0,
          diff_text := "File " ++ file.original_path ++ " no longer exists or cannot be read\n" }
  | some current_content =>
    match storedResult with
    | .error e => .error e
    | .ok stored_content =>
      let diff := diffLines stored_content current_content
      let has_any_changes :=
        diff.any (fun c => c.1 = ChangeTag.Delete || c.1 = ChangeTag.Insert)
      if !has_any_changes then
        .ok { path := file.original_path, has_changes := false, additions := 0,
              deletions := 0, diff_text := "Files are identical.\n" }
      else
        let r := diffSecondPass options diff
        .ok { path := file.original_path,
              has_changes := decide (r.additions > 0) || decide (r.deletions > 0),
              additions := r.additions, deletions := r.deletions,
              diff_text := r.diff_text }

/-! ## Restore (`src/commands/restore.rs`) -/

/-- `RestoreOptions` (`restore.rs` lines 16-28). -/
structure RestoreOptions where
  path : Option String
  force : Bool
  dry_run : Bool
  backup : Bool
deriving DecidableEq, Repr

/-- The filesystem's per-file behaviour during one iteration of the restore
loop, passed explicitly: result of `fs::read` on the stored blob, existence
of the destination and its parent directory, and success of
`create_dir_all` / backup `fs::copy` / `fs::write`. -/
structure FileEnv where
  readResult : Option (List Nat)
  fileExists : Bool
  parentSome : Bool
  parentExists : Bool
  mkdirOk : Bool
  backupOk : Bool
  writeOk : Bool

/-- A filesystem mutation performed by `restore_files`.  `createDb` is the
SQLite backend creating and initialising `kitty.db` on open
(`SqliteStorage::new`, `sqlite.rs` lines 13-56) when the database file does
not exist yet; the others are keyed by the destination's `original_path`
(`mkdir` stands for creating its parent directories). -/
inductive Effect where
  | createDb
  | mkdir (path : String)
  | backup (path : String)
  | write (path : String)
deriving DecidableEq, Repr

/-- The `restored_count` / `skipped_count` / `error_count` counters of
`restore.rs` lines 127-129. -/
structure Tally where
  restored : Nat
  skipped : Nat
  errored : Nat
deriving DecidableEq, Repr

/-- How one iteration of the restore loop classified its file. -/
inductive RestoreOutcome where
  | restored
  | skipped
  | errored
deriving DecidableEq, Repr

def tallyOf : RestoreOutcome → Tally
  | .restored => { restored := 1, skipped := 0, errored := 0 }
  | .skipped => { restored := 0, skipped := 1, errored := 0 }
  | .errored => { restored := 0, skipped := 0, errored := 1 }

def tallyAdd (a b : Tally) : Tally :=
  { restored := a.restored + b.restored, skipped := a.skipped + b.skipped,
    errored := a.errored + b.errored }

/-- One iteration of the restore loop (`restore.rs` lines 132-233): read the
stored blob, decrypt, honour `dry_run`, create missing parent directories,
take a backup (a backup failure is only a warning), write the destination.
Each failure is counted and the loop continues; the body itself never
propagates an error.  The read of the destination's permission metadata
(lines 203-220) only prints a note and is not modelled. -/
def restore_process_one (crypto : Crypto) (options : RestoreOptions)
    (file : TrackedFile) (env : FileEnv) : RestoreOutcome × List Effect :=
  match env.readResult with
  | none => (.errored, [])
  | some encrypted_stored_content =>
    match Crypto.decrypt crypto encrypted_stored_content with
    | .error _ => (.errored, [])
    | .ok _decrypted_stored_content =>
      if options.dry_run then (.skipped, [])
      else
        let needDir := env.parentSome && !env.parentExists
        if needDir && !env.mkdirOk then (.errored, [])
        else
          let dirEffs := if needDir then [Effect.mkdir file.original_path] else []
          let bakEffs :=
            if env.fileExists && options.backup && env.backupOk then
              [Effect.backup file.original_path]
            else []
          if env.writeOk then
            (.restored, dirEffs ++ bakEffs ++ [Effect.write file.original_path])
          else
            (.errored, dirEffs ++ bakEffs)

/-- The restore loop (`restore.rs` lines 132-233) over the files to process,
each paired with its filesystem behaviour. -/
def restore_loop (crypto : Crypto) (options : RestoreOptions) :
    List (TrackedFile × FileEnv) → Tally × List Effect
  | [] => ({ restored := 0, skipped := 0, errored := 0 }, [])
  | (file, env) :: rest =>
    let s := restore_process_one crypto options file env
    let r := restore_loop crypto options rest
    (tallyAdd (tallyOf s.1) r.1, s.2 ++ r.2)

/-- The final tally `restore_files` prints (`restore.rs` lines 236-241). -/
structure RestoreReport where
  files_count : Nat
  restored : Nat
  skipped : Nat
  errored : Nat
deriving DecidableEq, Repr

/-- The world `restore_files` runs against: repository presence, the
`storage.type` marker, `salt.key` and `config.enc` contents, the password
typed at the prompt, whether `kitty.db` already exists and what loading it
yields, the OS path canonicaliser, the confirmation line typed on stdin,
and the per-file filesystem behaviour for the i-th processed file. -/
structure RestoreWorld where
  repoExists : Bool
  marker : Option String
  saltFile : Option String
  configEnc : Option (List Nat)
  password : String
  dbExists : Bool
  dbRepo : Except KittyError Repository
  canon : String → String
  confirmInput : String
  envs : Nat → FileEnv

/-- Pair each file to process with its filesystem behaviour. -/
def attachEnvs (files : List TrackedFile) (envs : Nat → FileEnv) :
    List (TrackedFile × FileEnv) :=
  files.enum.map (fun p => (p.2, envs p.1))

/-- The `files_to_process` filtering of `restore_files` (`restore.rs` lines
82-122): a record matches on equality with the canonicalized path
(`canonicalize` falls back to the raw path) or on substring containment. -/
def restore_filtered (w : RestoreWorld) (options : RestoreOptions)
    (repository : Repository) : Except KittyError (List TrackedFile) :=
  match options.path with
  | some p =>
    if (repository.files.filter
        (fun f => f.original_path == w.canon p || strContains f.original_path p)).isEmpty
    then .error (KittyError.FileNotTracked p)
    else .ok (repository.files.filter
        (fun f => f.original_path == w.canon p || strContains f.original_path p))
  | none => .ok repository.files

/-- The `restore_files` confirmation prompt outcome (`restore.rs` lines
103-117): the operation is cancelled when no path was given, `--force` and
`--dry-run` are off, and the typed line is not `y`/`Y`. -/
def restore_cancelled (w : RestoreWorld) (options : RestoreOptions) : Bool :=
  options.path.isNone && !options.force && !options.dry_run
    && !(strTrim w.confirmInput == "y" || strTrim w.confirmInput == "Y")

/-- The repository-loading step of `restore_files` (`restore.rs` lines
63-73), returning the load result together with the filesystem mutations
it performs: the SQLite variant first opens `kitty.db`
(`SqliteStorage::new`, `sqlite.rs` lines 13-56), creating and initialising
it when absent — after which the fresh database holds no repository row,
so loading fails with `RepositoryNotFound`; the file variant reads and
decrypts `config.enc` and parses it, mutating nothing. -/
def restore_load (w : RestoreWorld) (crypto : Crypto) (storage_type : String) :
    Except KittyError Repository × List Effect :=
  if storage_type = "sqlite" then
    if w.dbExists then (w.dbRepo, [])
    else (.error KittyError.RepositoryNotFound, [Effect.createDb])
  else
    (match w.configEnc with
     | none => .error (KittyError.Io "No such file or directory: config.enc")
     | some encrypted_config =>
       match Crypto.decrypt crypto encrypted_config with
       | .error e => .error e
       | .ok decrypted_config =>
         match parseRepo decrypted_config with
         | some repo => .ok repo
         | none => .error (KittyError.Serialization "invalid JSON"),
     [])

/-- The part of `restore_files` after the repository has been loaded
(`restore.rs` lines 75-243): the empty-repository early return, the path
filtering, the confirmation prompt, and the per-file loop with its final
tally and effects. -/
def restore_post_load (w : RestoreWorld) (options : RestoreOptions) (crypto : Crypto)
    (repository : Repository) :
    Except KittyError (Option RestoreReport) × List Effect :=
  if repository.files.isEmpty then (.ok none, [])
  else
    match restore_filtered w options repository with
    | .error e => (.error e, [])
    | .ok files_to_process =>
      if restore_cancelled w options then (.ok none, [])
      else
        (.ok (some (RestoreReport.mk files_to_process.length
            (restore_loop crypto options (attachEnvs files_to_process w.envs)).1.restored
            (restore_loop crypto options (attachEnvs files_to_process w.envs)).1.skipped
            (restore_loop crypto options (attachEnvs files_to_process w.envs)).1.errored)),
         (restore_loop crypto options (attachEnvs files_to_process w.envs)).2)

/-- `restore_files` (`restore.rs` lines 42-244).  The outer `Option` models
the `copy_from_slice` panic inside `Crypto::from_password_and_salt`; the
result pairs the returned value (`ok none` for the early returns that skip
the loop: empty repository or cancelled confirmation) with the list of
filesystem mutations performed.  Stages in source order: repository
existence, storage marker, salt retrieval and hex decode, key derivation,
repository load (the SQLite variant first opens `kitty.db`, creating and
initialising it when absent, after which a fresh database holds no
repository row), empty check, path filtering, confirmation prompt, loop. -/
def restore_files_model (w : RestoreWorld) (options : RestoreOptions) :
    Option (Except KittyError (Option RestoreReport) × List Effect) :=
  if !w.repoExists then some (.error KittyError.RepositoryNotFound, [])
  else
    match get_storage_type w.marker with
    | .error e => some (.error e, [])
    | .ok storage_type =>
      match get_repository_salt w.saltFile w.configEnc with
      | .error e => some (.error e, [])
      | .ok salt_str =>
        match hexDecode salt_str with
        | none => some (.error (KittyError.HexDecoding "Invalid character"), [])
        | some config_salt =>
          match Crypto.from_password_and_salt w.password config_salt with
          | none => none
          | some crypto =>
            match restore_load w crypto storage_type with
            | (.error e, loadEffs) => some (.error e, loadEffs)
            | (.ok repository, loadEffs) =>
              some ((restore_post_load w options crypto repository).1,
                loadEffs ++ (restore_post_load w options crypto repository).2)

/-! ## Memory (flat-file) storage backend (`src/storage/memory.rs`)

The backend's durable state is the pair of file contents it touches:
`config.enc` (bytes) and `salt.key` (string); both are passed and returned
explicitly. -/

/-- `MemoryStorage::save_repository` (`memory.rs` lines 19-41): derive a key
from the FIXED password string `"placeholder"` and the repository's own
salt, encrypt the serialized repository into `config.enc` and write the
salt to `salt.key`.  The outer `Option` models the `copy_from_slice` panic
for salts that do not decode to 16 bytes; the freshly drawn nonce is passed
explicitly. -/
def MemoryStorage.save_repository (repository : Repository) (nonce : List Nat) :
    Option (Except KittyError (List Nat × String)) :=
  match hexDecode repository.salt with
  | none => some (.error (KittyError.HexDecoding "Invalid character"))
  | some salt_bytes =>
    match Crypto.from_password_and_salt "placeholder" salt_bytes with
    | none => none
    | some crypto =>
      match Crypto.encrypt crypto nonce (serializeRepo repository) with
      | .error e => some (.error e)
      | .ok encrypted_data => some (.ok (encrypted_data, repository.salt))

/-- `MemoryStorage::get_salt` (`memory.rs` lines 44-52). -/
def MemoryStorage.get_salt (saltKey : Option String) : Except KittyError String :=
  match saltKey with
  | some s => .ok s
  | none => .error KittyError.RepositoryNotFound

/-- `MemoryStorage::load_repository` (`memory.rs` lines 55-81): read the
salt from `salt.key`, derive the key from the FIXED password string
`"placeholder"`, decrypt `config.enc` and parse it — no user password is
involved anywhere. -/
def MemoryStorage.load_repository (configEnc : Option (List Nat)) (saltKey : Option String) :
    Option (Except KittyError Repository) :=
  match MemoryStorage.get_salt saltKey with
  | .error e => some (.error e)
  | .ok salt =>
    match configEnc with
    | none => some (.error KittyError.RepositoryNotFound)
    | some encrypted_data =>
      match hexDecode salt with
      | none => some (.error (KittyError.HexDecoding "Invalid character"))
      | some salt_bytes =>
        match Crypto.from_password_and_salt "placeholder" salt_bytes with
        | none => none
        | some crypto =>
          match Crypto.decrypt crypto encrypted_data with
          | .error e => some (.error e)
          | .ok decrypted_data =>
            match parseRepo decrypted_data with
            | some repository => some (.ok repository)
            | none => some (.error (KittyError.Serialization "invalid JSON"))

/-! ## Concrete test vectors (used by the witnesses below) -/

/-- A 16-byte all-zero salt. -/
def z16 : List Nat := List.replicate 16 0

/-- A 12-byte all-zero nonce. -/
def n12 : List Nat := List.replicate 12 0

/-- The `Crypto` value derived from password `"a"` and the zero salt. -/
def cryptoA : Crypto := { salt := z16, key := pbkdf2_derive z16 "a" }

/-- The `Crypto` value derived from password `"b"` and the zero salt. -/
def cryptoB : Crypto := { salt := z16, key := pbkdf2_derive z16 "b" }

/-- The single already-tracked file of the C4/C3 scenario. -/
def c4_file0 : TrackedFile :=
  { original_path := "/a", repo_path := "files/k0", added_at := 0, last_updated := 0,
    hash := "h0" }

/-- A repository already tracking one file (`/a` stored under `files/k0`). -/
def c4_repo : Repository := { created_at := 0, salt := "s", files := [c4_file0] }

/-- Diff options with `context` off (and 3 context lines). -/
def c7_opts : DiffOptions :=
  { path := none, only_changed := false, summary := false, context := false,
    context_lines := 3 }

/-- Diff options differing from `c7_opts` only in `context`/`context_lines`. -/
def c7_opts_ctx : DiffOptions :=
  { path := none, only_changed := false, summary := false, context := true,
    context_lines := 5 }

/-- The diff result for stored `["a"]` vs live `["a", "b"]` under `c7_opts`. -/
def c7_result : DiffResult :=
  { path := "/a", has_changes := true, additions := 1, deletions := 0,
    diff_text := "+b" }

/-- The diff result for the same contents under `c7_opts_ctx`. -/
def c7_result_ctx : DiffResult :=
  { path := "/a", has_changes := true, additions := 1, deletions := 0,
    diff_text := " a+b" }

/-- A hex salt string of 32 zero characters (16 zero bytes once decoded). -/
def c8_salt_hex : String := "00000000000000000000000000000000"

/-- The `Crypto` value derived from password `"pw"` and the zero salt. -/
def cryptoPW : Crypto := { salt := z16, key := pbkdf2_derive z16 "pw" }

/-- A second tracked file. -/
def c8_file1 : TrackedFile :=
  { original_path := "/b", repo_path := "files/k1", added_at := 0, last_updated := 0,
    hash := "h1" }

/-- A third tracked file. -/
def c8_file2 : TrackedFile :=
  { original_path := "/c", repo_path := "files/k2", added_at := 0, last_updated := 0,
    hash := "h2" }

/-- A repository tracking three files. -/
def c8_repo : Repository :=
  { created_at := 0, salt := c8_salt_hex, files := [c4_file0, c8_file1, c8_file2] }

/-- Per-file behaviour: the stored blob cannot be read. -/
def c8_env_noread : FileEnv :=
  { readResult := none, fileExists := false, parentSome := false, parentExists := false,
    mkdirOk := true, backupOk := true, writeOk := true }

/-- Per-file behaviour: a well-formed stored blob, everything succeeds. -/
def c8_env_ok : FileEnv :=
  { readResult := some (Crypto.encryptBytes cryptoPW n12 [7]), fileExists := false,
    parentSome := false, parentExists := false, mkdirOk := true, backupOk := true,
    writeOk := true }

/-- Per-file behaviour: the stored blob is truncated (decryption fails). -/
def c8_env_badblob : FileEnv :=
  { readResult := some [], fileExists := false, parentSome := false,
    parentExists := false, mkdirOk := true, backupOk := true, writeOk := true }

/-- A SQLite-backed world with three tracked files whose per-file runs are:
unreadable blob, success, undecryptable blob. -/
def c8_world : RestoreWorld :=
  { repoExists := true, marker := some "sqlite", saltFile := some c8_salt_hex,
    configEnc := none, password := "pw", dbExists := true, dbRepo := .ok c8_repo,
    canon := fun s => s, confirmInput := "y",
    envs := fun i => if i = 0 then c8_env_noread
      else if i = 1 then c8_env_ok else c8_env_badblob }

/-- Restore options: all files, forced, real run, no backups. -/
def c8_options : RestoreOptions :=
  { path := none, force := true, dry_run := false, backup := false }

/-- Restore options: all files, forced, DRY run. -/
def c9_options_dry : RestoreOptions :=
  { path := none, force := true, dry_run := true, backup := false }

/-- A repository directory whose `storage.type` marker says `sqlite` but
whose `kitty.db` does not exist yet. -/
def c9_world : RestoreWorld :=
  { repoExists := true, marker := some "sqlite", saltFile := some c8_salt_hex,
    configEnc := none, password := "pw", dbExists := false,
    dbRepo := .error KittyError.RepositoryNotFound, canon := fun s => s,
    confirmInput := "y", envs := fun _ => c8_env_ok }

/-- Restore options for the C9 counterexample: dry run, defaults otherwise. -/
def c9_options : RestoreOptions :=
  { path := none, force := false, dry_run := true, backup := true }

/-- The `Crypto` value the memory backend derives from the FIXED password
string `"placeholder"` and the zero salt. -/
def cryptoPH : Crypto := { salt := z16, key := pbkdf2_derive z16 "placeholder" }

/-- A repository whose salt is valid hex for 16 bytes, tracking one file. -/
def c10_repo : Repository :=
  { created_at := 0, salt := c8_salt_hex, files := [c4_file0] }

/-! # Theorems -/

/-! ## Encoding and AEAD-model lemmas -/

theorem decodeListN_encodeList : ∀ l : List Nat, decodeListN (encodeList l) = l
  | [] => by simp [encodeList, decodeListN]
  | a :: l => by
    simp only [encodeList, decodeListN, Nat.unpair_pair]
    exact congrArg (List.cons a) (decodeListN_encodeList l)

theorem encodeList_injective : Function.Injective encodeList := by
  intro l l' h
  have := congrArg decodeListN h
  rwa [decodeListN_encodeList, decodeListN_encodeList] at this

theorem char_toNat_lt (c : Char) : c.toNat < 1114112 := by
  have h := c.valid
  rcases h with h | ⟨_, h2⟩
  · exact lt_trans h (by norm_num)
  · exact h2

theorem char_digit_lt (c : Char) : c.toNat + 1 < CHAR_BASE := by
  have := char_toNat_lt c
  unfold CHAR_BASE
  omega

/-- Unpacking with the right count is a left inverse of packing. -/
theorem strUnpack_strPackList :
    ∀ l : List Char, strUnpack l.length (strPackList l) = l
  | [] => rfl
  | c :: cs => by
    have hd := char_digit_lt c
    have hmod : (c.toNat + 1 + CHAR_BASE * strPackList cs) % CHAR_BASE = c.toNat + 1 := by
      rw [Nat.add_mul_mod_self_left, Nat.mod_eq_of_lt hd]
    have hdiv : (c.toNat + 1 + CHAR_BASE * strPackList cs) / CHAR_BASE = strPackList cs := by
      rw [Nat.add_mul_div_left _ _ (by norm_num [CHAR_BASE] : 0 < CHAR_BASE),
        Nat.div_eq_of_lt hd, Nat.zero_add]
    show strUnpack (cs.length + 1) (strPackList (c :: cs)) = c :: cs
    unfold strUnpack strPackList
    rw [hmod, hdiv, Nat.add_sub_cancel, Char.ofNat_toNat]
    exact congrArg (List.cons c) (strUnpack_strPackList cs)

theorem strPackList_pos (c : Char) (cs : List Char) : 0 < strPackList (c :: cs) := by
  unfold strPackList
  omega

theorem strPackList_inj : ∀ l l' : List Char, strPackList l = strPackList l' → l = l'
  | [], [] => fun _ => rfl
  | [], c :: cs => by
    intro h
    exact absurd h.symm (Nat.ne_of_gt (strPackList_pos c cs))
  | c :: cs, [] => by
    intro h
    exact absurd h (Nat.ne_of_gt (strPackList_pos c cs))
  | c :: cs, c' :: cs' => by
    intro h
    unfold strPackList at h
    have hd := char_digit_lt c
    have hd' := char_digit_lt c'
    have hmod := congrArg (· % CHAR_BASE) h
    simp only [Nat.add_mul_mod_self_left] at hmod
    rw [Nat.mod_eq_of_lt hd, Nat.mod_eq_of_lt hd'] at hmod
    have hc : c = c' := by
      have : c.toNat = c'.toNat := by omega
      have := congrArg Char.ofNat this
      rwa [Char.ofNat_toNat, Char.ofNat_toNat] at this
    have hdiv := congrArg (· / CHAR_BASE) h
    simp only at hdiv
    rw [Nat.add_mul_div_left _ _ (by norm_num [CHAR_BASE] : 0 < CHAR_BASE),
      Nat.add_mul_div_left _ _ (by norm_num [CHAR_BASE] : 0 < CHAR_BASE),
      Nat.div_eq_of_lt hd, Nat.div_eq_of_lt hd'] at hdiv
    simp only [Nat.zero_add] at hdiv
    exact hc ▸ congrArg (List.cons c) (strPackList_inj cs cs' hdiv)

theorem encodeStr_injective : Function.Injective encodeStr := by
  intro s s' h
  have := strPackList_inj _ _ h
  have h2 := congrArg String.mk this
  exact h2

theorem pbkdf2_derive_inj {s s' : List Nat} {p p' : String}
    (h : pbkdf2_derive s p = pbkdf2_derive s' p') : s = s' ∧ p = p' := by
  unfold pbkdf2_derive at h
  have h1 := congrArg (fun n => (Nat.unpair n).1) h
  have h2 := congrArg (fun n => (Nat.unpair n).2) h
  simp only [Nat.unpair_pair] at h1 h2
  exact ⟨encodeList_injective h1, encodeStr_injective h2⟩

theorem tagOf_inj {k k' : Nat} {n n' m m' : List Nat}
    (h : tagOf k n m = tagOf k' n' m') : k = k' ∧ n = n' ∧ m = m' := by
  unfold tagOf at h
  have h1 := congrArg (fun x => (Nat.unpair x).1) h
  have h2 := congrArg (fun x => (Nat.unpair (Nat.unpair x).2).1) h
  have h3 := congrArg (fun x => (Nat.unpair (Nat.unpair x).2).2) h
  simp only [Nat.unpair_pair] at h1 h2 h3
  exact ⟨h1, encodeList_injective h2, encodeList_injective h3⟩

theorem chacha_open_encrypt (key : Nat) (nonce pt : List Nat) :
    chacha_open key nonce (chacha_encrypt key nonce pt) = some pt := by
  unfold chacha_open chacha_encrypt
  rw [List.getLast?_concat, List.dropLast_concat]
  simp

/-- A successful `chacha_open` means the ciphertext was a genuine seal of
its output under that key and nonce. -/
theorem chacha_open_some {k : Nat} {n ct q : List Nat}
    (h : chacha_open k n ct = some q) : ct = q ++ [tagOf k n q] := by
  unfold chacha_open at h
  split at h
  · exact absurd h (by simp)
  · next t hl =>
    split at h
    · next ht =>
      injection h with h1
      subst h1
      have hne : ct ≠ [] := by intro he; subst he; simp at hl
      have hlast : ct.getLast hne = t := by
        have h2 := List.getLast?_eq_getLast ct hne
        rw [hl] at h2
        exact (Option.some_inj.mp h2).symm
      conv_lhs => rw [← List.dropLast_append_getLast hne]
      rw [hlast, ht]
    · exact absurd h (by simp)

/-- `chacha_open` under a different key always fails on a genuine seal. -/
theorem chacha_open_wrong_key {k k' : Nat} (hk : k ≠ k') (n n' pt : List Nat) :
    chacha_open k' n' (chacha_encrypt k n pt) = none := by
  unfold chacha_open chacha_encrypt
  rw [List.getLast?_concat, List.dropLast_concat]
  have : tagOf k n pt ≠ tagOf k' n' pt := fun h => hk (tagOf_inj h).1
  simp [this]

/-- What `from_password_and_salt` returns when it does not panic. -/
theorem from_password_and_salt_some {password : String} {salt : List Nat} {c : Crypto}
    (h : Crypto.from_password_and_salt password salt = some c) :
    salt.length = SALT_LEN ∧ c = { salt := salt, key := pbkdf2_derive salt password } := by
  unfold Crypto.from_password_and_salt at h
  by_cases hl : salt.length = SALT_LEN
  · rw [if_pos hl] at h
    exact ⟨hl, (Option.some_inj.mp h).symm⟩
  · rw [if_neg hl] at h
    exact absurd h (by simp)

theorem decrypt_encryptBytes (c : Crypto) (nonce data : List Nat)
    (hn : nonce.length = NONCE_LEN) :
    Crypto.decrypt c (Crypto.encryptBytes c nonce data) = .ok data := by
  unfold Crypto.decrypt Crypto.encryptBytes
  have hnotlt : ¬ (nonce ++ chacha_encrypt c.key nonce data).length < NONCE_LEN := by
    rw [List.length_append, hn]
    omega
  rw [if_neg hnotlt, List.take_left' hn, List.drop_left' hn, chacha_open_encrypt]

/-! ## C1 — encrypt/decrypt round trip -/

/-- C1: for every password, every 16-byte salt, every plaintext and every
nonce the encryptor draws, decrypting (with the key
`Crypto::from_password_and_salt` derives from that same password and salt)
the blob `Crypto::encrypt` produced returns exactly the original
plaintext. -/
theorem crypto_roundtrip (password : String) (salt : List Nat) (c : Crypto)
    (nonce data blob : List Nat)
    (hc : Crypto.from_password_and_salt password salt = some c)
    (hn : nonce.length = NONCE_LEN)
    (he : Crypto.encrypt c nonce data = .ok blob) :
    Crypto.decrypt c blob = .ok data := by
  have hb : blob = Crypto.encryptBytes c nonce data := by
    unfold Crypto.encrypt at he
    injection he with h1
    exact h1.symm
  rw [hb]
  exact decrypt_encryptBytes c nonce data hn

theorem crypto_roundtrip_witness :
    Crypto.decrypt cryptoA (Crypto.encryptBytes cryptoA n12 [104, 105]) =
      .ok [104, 105] :=
  crypto_roundtrip "a" z16 cryptoA n12 [104, 105]
    (Crypto.encryptBytes cryptoA n12 [104, 105]) (by rfl) (by rfl) rfl

/-! ## C2 — decryption failure behaviour -/

/-- C2: `Crypto::decrypt` returns an error (never plaintext) on a blob
shorter than the 12-byte nonce; a successful decryption is only possible
for a blob that is a genuine seal of its output under the same key (so any
tampered blob fails); a blob sealed under a key derived from a different
`(password, salt)` pair fails; and every failure is signalled by the single
error kind `KittyError::Decryption`, so an authentication failure is
indistinguishable from a wrong password. -/
theorem decrypt_rejects (pw pw' : String) (s s' : List Nat) (c c' : Crypto)
    (nonce pt pt' blob : List Nat)
    (hc : Crypto.from_password_and_salt pw s = some c)
    (hc' : Crypto.from_password_and_salt pw' s' = some c')
    (hn : nonce.length = NONCE_LEN) :
    (blob.length < NONCE_LEN →
      Crypto.decrypt c blob = .error (KittyError.Decryption "Invalid ciphertext"))
    ∧ (Crypto.decrypt c blob = .ok pt' →
        blob = blob.take NONCE_LEN ++ chacha_encrypt c.key (blob.take NONCE_LEN) pt')
    ∧ ((pw, s) ≠ (pw', s') →
        Crypto.decrypt c' (Crypto.encryptBytes c nonce pt) =
          .error (KittyError.Decryption "aead::Error"))
    ∧ (exceptIsOk (Crypto.decrypt c blob) = false →
        isDecryptionErr (Crypto.decrypt c blob) = true) := by
  obtain ⟨hsl, hcv⟩ := from_password_and_salt_some hc
  obtain ⟨hsl', hcv'⟩ := from_password_and_salt_some hc'
  refine ⟨?_, ?_, ?_, ?_⟩
  · intro hlt
    unfold Crypto.decrypt
    rw [if_pos hlt]
  · intro h
    unfold Crypto.decrypt at h
    by_cases hlt : blob.length < NONCE_LEN
    · rw [if_pos hlt] at h; exact absurd h (by simp)
    · rw [if_neg hlt] at h
      cases hop : chacha_open c.key (blob.take NONCE_LEN) (blob.drop NONCE_LEN) with
      | none => rw [hop] at h; exact absurd h (by simp)
      | some q =>
        rw [hop] at h
        injection h with h1
        have hdrop := chacha_open_some hop
        unfold chacha_encrypt
        rw [← h1]
        conv_lhs => rw [← List.take_append_drop NONCE_LEN blob]
        rw [hdrop]
  · intro hne
    have hkey : c.key ≠ c'.key := by
      rw [hcv, hcv']
      intro hk
      have := pbkdf2_derive_inj hk
      exact hne (by rw [this.2, this.1])
    unfold Crypto.decrypt Crypto.encryptBytes
    have hnotlt : ¬ (nonce ++ chacha_encrypt c.key nonce pt).length < NONCE_LEN := by
      rw [List.length_append, hn]
      omega
    rw [if_neg hnotlt, List.take_left' hn, List.drop_left' hn,
      chacha_open_wrong_key hkey]
  · intro hnotok
    unfold Crypto.decrypt at hnotok ⊢
    by_cases hlt : blob.length < NONCE_LEN
    · rw [if_pos hlt]; rfl
    · rw [if_neg hlt] at hnotok ⊢
      cases hop : chacha_open c.key (blob.take NONCE_LEN) (blob.drop NONCE_LEN) with
      | none => rfl
      | some q => rw [hop] at hnotok; exact absurd hnotok (by simp [exceptIsOk])

/-! ## C7 — the diff verdict -/

theorem diffSecondPass_additions (o : DiffOptions) :
    ∀ l : List (ChangeTag × String), (diffSecondPass o l).additions
      = l.countP (fun c => c.1 = ChangeTag.Insert)
  | [] => rfl
  | (tag, line) :: rest => by
    rw [List.countP_cons]
    have ih := diffSecondPass_additions o rest
    unfold diffSecondPass
    cases tag with
    | Delete => simpa using ih
    | Insert => simpa using ih
    | Equal =>
      by_cases hc : o.context
      · simpa [hc] using ih
      · simpa [hc] using ih

theorem diffSecondPass_deletions (o : DiffOptions) :
    ∀ l : List (ChangeTag × String), (diffSecondPass o l).deletions
      = l.countP (fun c => c.1 = ChangeTag.Delete)
  | [] => rfl
  | (tag, line) :: rest => by
    rw [List.countP_cons]
    have ih := diffSecondPass_deletions o rest
    unfold diffSecondPass
    cases tag with
    | Delete => simpa using ih
    | Insert => simpa using ih
    | Equal =>
      by_cases hc : o.context
      · simpa [hc] using ih
      · simpa [hc] using ih

theorem diff_any_counts (l : List (ChangeTag × String)) :
    l.any (fun c => c.1 = ChangeTag.Delete || c.1 = ChangeTag.Insert) = true
    ↔ 0 < l.countP (fun c => c.1 = ChangeTag.Insert)
      ∨ 0 < l.countP (fun c => c.1 = ChangeTag.Delete) := by
  rw [List.any_eq_true, List.countP_pos, List.countP_pos]
  constructor
  · rintro ⟨a, ha, hpa⟩
    simp only [Bool.or_eq_true, decide_eq_true_eq] at hpa
    rcases hpa with h1 | h1
    · exact Or.inr ⟨a, ha, by simp [h1]⟩
    · exact Or.inl ⟨a, ha, by simp [h1]⟩
  · rintro (⟨a, ha, hpa⟩ | ⟨a, ha, hpa⟩)
    · simp only [decide_eq_true_eq] at hpa
      exact ⟨a, ha, by simp [hpa]⟩
    · simp only [decide_eq_true_eq] at hpa
      exact ⟨a, ha, by simp [hpa]⟩

/-- C7: for contents that can both be read, `diff_single_file`'s
`has_changes` verdict is `true` exactly when the line diff of stored
vs. live content contains at least one inserted or deleted line, and the
verdict together with the addition/deletion counts is identical for any
two `DiffOptions` that differ only in the cosmetic `context` /
`context_lines` fields. -/
theorem diff_verdict (file : TrackedFile) (stored current : List String)
    (opts opts' : DiffOptions) (r r' : DiffResult)
    (hpath : opts.path = opts'.path)
    (honly : opts.only_changed = opts'.only_changed)
    (hsummary : opts.summary = opts'.summary)
    (hr : diff_single_file file (some current) (.ok stored) opts = .ok r)
    (hr' : diff_single_file file (some current) (.ok stored) opts' = .ok r') :
    (r.has_changes = (diffLines stored current).any
        (fun c => c.1 = ChangeTag.Delete || c.1 = ChangeTag.Insert))
    ∧ r.has_changes = r'.has_changes
    ∧ r.additions = r'.additions
    ∧ r.deletions = r'.deletions := by
  unfold diff_single_file at hr hr'
  by_cases hany : (diffLines stored current).any
      (fun c => c.1 = ChangeTag.Delete || c.1 = ChangeTag.Insert) = true
  · simp only [hany, Bool.not_true, Bool.false_eq_true, if_false,
      Except.ok.injEq] at hr hr'
    subst hr
    subst hr'
    have hadds := diffSecondPass_additions opts (diffLines stored current)
    have hadds' := diffSecondPass_additions opts' (diffLines stored current)
    have hdels := diffSecondPass_deletions opts (diffLines stored current)
    have hdels' := diffSecondPass_deletions opts' (diffLines stored current)
    refine ⟨?_, ?_, ?_, ?_⟩
    · show (decide (0 < (diffSecondPass opts (diffLines stored current)).additions)
        || decide (0 < (diffSecondPass opts (diffLines stored current)).deletions)) = _
      rw [hany]
      rcases (diff_any_counts _).mp hany with h1 | h1
      · simp [hadds, h1]
      · simp [hdels, h1]
    · show (decide (0 < (diffSecondPass opts (diffLines stored current)).additions)
        || decide (0 < (diffSecondPass opts (diffLines stored current)).deletions))
        = (decide (0 < (diffSecondPass opts' (diffLines stored current)).additions)
        || decide (0 < (diffSecondPass opts' (diffLines stored current)).deletions))
      rw [hadds, hadds', hdels, hdels']
    · show (diffSecondPass opts (diffLines stored current)).additions
        = (diffSecondPass opts' (diffLines stored current)).additions
      rw [hadds, hadds']
    · show (diffSecondPass opts (diffLines stored current)).deletions
        = (diffSecondPass opts' (diffLines stored current)).deletions
      rw [hdels, hdels']
  · have hanyf : (diffLines stored current).any
        (fun c => c.1 = ChangeTag.Delete || c.1 = ChangeTag.Insert) = false :=
      Bool.eq_false_iff.mpr hany
    simp only [hanyf, Bool.not_false, if_true, Except.ok.injEq] at hr hr'
    subst hr
    subst hr'
    exact ⟨hanyf.symm, rfl, rfl, rfl⟩

theorem diff_verdict_witness :
    (c7_result.has_changes = (diffLines ["a"] ["a", "b"]).any
        (fun c => c.1 = ChangeTag.Delete || c.1 = ChangeTag.Insert))
    ∧ c7_result.has_changes = c7_result_ctx.has_changes
    ∧ c7_result.additions = c7_result_ctx.additions
    ∧ c7_result.deletions = c7_result_ctx.deletions :=
  diff_verdict c4_file0 ["a"] ["a", "b"] c7_opts c7_opts_ctx c7_result c7_result_ctx
    rfl rfl rfl (by rfl) (by rfl)

/-! ## C8 — batch restore continues past per-file errors -/

theorem tallyAdd_assoc (a b c : Tally) :
    tallyAdd a (tallyAdd b c) = tallyAdd (tallyAdd a b) c := by
  simp [tallyAdd, Nat.add_assoc]

theorem tallyAdd_zero_left (t : Tally) :
    tallyAdd { restored := 0, skipped := 0, errored := 0 } t = t := by
  cases t
  simp [tallyAdd]

/-- Each processed file bumps exactly one of the three counters. -/
theorem tallyOf_sum (x : RestoreOutcome) :
    (tallyOf x).restored + (tallyOf x).skipped + (tallyOf x).errored = 1 := by
  cases x <;> rfl

/-- The loop's tally components always sum to the number of processed
files: no processed file is dropped and no failure stops the count. -/
theorem restore_loop_sum (crypto : Crypto) (o : RestoreOptions) :
    ∀ items : List (TrackedFile × FileEnv),
    (restore_loop crypto o items).1.restored + (restore_loop crypto o items).1.skipped
      + (restore_loop crypto o items).1.errored = items.length
  | [] => rfl
  | (f, env) :: rest => by
    have ih := restore_loop_sum crypto o rest
    have hs := tallyOf_sum (restore_process_one crypto o f env).1
    unfold restore_loop
    simp only [tallyAdd, List.length_cons]
    omega

/-- The loop distributes over concatenation: the files after a failing one
are processed exactly as they would be on their own. -/
theorem restore_loop_append (crypto : Crypto) (o : RestoreOptions) :
    ∀ i1 i2 : List (TrackedFile × FileEnv),
    restore_loop crypto o (i1 ++ i2)
      = (tallyAdd (restore_loop crypto o i1).1 (restore_loop crypto o i2).1,
         (restore_loop crypto o i1).2 ++ (restore_loop crypto o i2).2)
  | [], i2 => by
    show restore_loop crypto o i2 = _
    rw [show (restore_loop crypto o []).1 = { restored := 0, skipped := 0, errored := 0 } from rfl]
    rw [tallyAdd_zero_left,
      show (restore_loop crypto o []).2 = ([] : List Effect) from rfl,
      List.nil_append]
  | (f, env) :: rest, i2 => by
    have ih := restore_loop_append crypto o rest i2
    show (tallyAdd (tallyOf (restore_process_one crypto o f env).1)
        (restore_loop crypto o (rest ++ i2)).1,
      (restore_process_one crypto o f env).2 ++ (restore_loop crypto o (rest ++ i2)).2) = _
    rw [ih, tallyAdd_assoc]
    show _ = (tallyAdd (tallyAdd (tallyOf _) (restore_loop crypto o rest).1)
        (restore_loop crypto o i2).1,
      ((restore_process_one crypto o f env).2 ++ (restore_loop crypto o rest).2)
        ++ (restore_loop crypto o i2).2)
    rw [List.append_assoc]

theorem attachEnvs_length (files : List TrackedFile) (envs : Nat → FileEnv) :
    (attachEnvs files envs).length = files.length := by
  simp [attachEnvs]

/-- Whenever the post-load stage reports a tally, its three counters sum to
the number of files processed. -/
theorem restore_post_load_report (w : RestoreWorld) (o : RestoreOptions)
    (crypto : Crypto) (repository : Repository) (rep : RestoreReport)
    (h : (restore_post_load w o crypto repository).1 = .ok (some rep)) :
    rep.restored + rep.skipped + rep.errored = rep.files_count := by
  unfold restore_post_load at h
  split at h
  · simp at h
  · split at h
    · simp at h
    · split at h
      · simp at h
      · simp only [Except.ok.injEq, Option.some.injEq] at h
        rw [← h]
        exact (restore_loop_sum crypto o _).trans (attachEnvs_length _ _)

/-- Whenever the whole of `restore_files` reports a tally, the counters sum
to the number of files processed. -/
theorem restore_model_report (w : RestoreWorld) (o : RestoreOptions)
    (rep : RestoreReport) (effs : List Effect)
    (h : restore_files_model w o = some (.ok (some rep), effs)) :
    rep.restored + rep.skipped + rep.errored = rep.files_count := by
  unfold restore_files_model at h
  split at h
  · simp at h
  · split at h
    · simp at h
    · split at h
      · simp at h
      · split at h
        · simp at h
        · split at h
          · simp at h
          · split at h
            · simp at h
            · simp only [Option.some.injEq, Prod.mk.injEq] at h
              exact restore_post_load_report w o _ _ rep h.1

/-- C8: a per-file failure during a batch restore (unreadable blob, failed
decryption, failed directory creation, failed write) never aborts
`restore_files`: whenever the function reports a tally at all, the three
counters sum to the number of files processed, and the loop distributes
over list concatenation, so every file after a failing one is still
processed exactly as it would be on its own. -/
theorem restore_batch_tally (w : RestoreWorld) (o : RestoreOptions)
    (rep : RestoreReport) (effs : List Effect) (crypto : Crypto)
    (o2 : RestoreOptions) (i1 i2 : List (TrackedFile × FileEnv))
    (h : restore_files_model w o = some (.ok (some rep), effs)) :
    rep.restored + rep.skipped + rep.errored = rep.files_count
    ∧ (restore_loop crypto o2 (i1 ++ i2)).1.restored
        = (restore_loop crypto o2 i1).1.restored + (restore_loop crypto o2 i2).1.restored
    ∧ (restore_loop crypto o2 (i1 ++ i2)).1.skipped
        = (restore_loop crypto o2 i1).1.skipped + (restore_loop crypto o2 i2).1.skipped
    ∧ (restore_loop crypto o2 (i1 ++ i2)).1.errored
        = (restore_loop crypto o2 i1).1.errored + (restore_loop crypto o2 i2).1.errored := by
  refine ⟨restore_model_report w o rep effs h, ?_, ?_, ?_⟩ <;>
    rw [restore_loop_append] <;> rfl

theorem restore_batch_tally_witness :
    ((RestoreReport.mk 3 1 0 2).restored + (RestoreReport.mk 3 1 0 2).skipped
        + (RestoreReport.mk 3 1 0 2).errored = (RestoreReport.mk 3 1 0 2).files_count)
    ∧ (restore_loop cryptoPW c8_options
          ([(c4_file0, c8_env_noread)] ++ [(c8_file1, c8_env_ok)])).1.restored
        = (restore_loop cryptoPW c8_options [(c4_file0, c8_env_noread)]).1.restored
          + (restore_loop cryptoPW c8_options [(c8_file1, c8_env_ok)]).1.restored
    ∧ (restore_loop cryptoPW c8_options
          ([(c4_file0, c8_env_noread)] ++ [(c8_file1, c8_env_ok)])).1.skipped
        = (restore_loop cryptoPW c8_options [(c4_file0, c8_env_noread)]).1.skipped
          + (restore_loop cryptoPW c8_options [(c8_file1, c8_env_ok)]).1.skipped
    ∧ (restore_loop cryptoPW c8_options
          ([(c4_file0, c8_env_noread)] ++ [(c8_file1, c8_env_ok)])).1.errored
        = (restore_loop cryptoPW c8_options [(c4_file0, c8_env_noread)]).1.errored
          + (restore_loop cryptoPW c8_options [(c8_file1, c8_env_ok)]).1.errored :=
  restore_batch_tally c8_world c8_options (RestoreReport.mk 3 1 0 2)
    [Effect.write "/b"] cryptoPW c8_options
    [(c4_file0, c8_env_noread)] [(c8_file1, c8_env_ok)] (by rfl)

/-! ## C10 — the memory backend's password-free round trip -/

theorem parseStr_serStr (s : String) (t : List Nat) :
    parseStr (serStr s ++ t) = some (s, t) := by
  show some (String.mk (strUnpack s.toList.length (strPackList s.toList)), t)
    = some (s, t)
  rw [strUnpack_strPackList]
  rfl

theorem parseTF_serTF (f : TrackedFile) (t : List Nat) :
    parseTF (serTF f ++ t) = some (f, t) := by
  have h1 : serTF f ++ t
      = serStr f.original_path ++ (serStr f.repo_path
        ++ (f.added_at :: f.last_updated :: (serStr f.hash ++ t))) := by
    simp [serTF, serStr, List.append_assoc]
  rw [h1]
  simp only [parseTF, parseStr_serStr]

theorem parseTFs_flatten : ∀ (fs : List TrackedFile) (t : List Nat),
    parseTFs fs.length ((fs.map serTF).flatten ++ t) = some (fs, t)
  | [], _ => rfl
  | f :: fs, t => by
    have h1 : ((f :: fs).map serTF).flatten ++ t
        = serTF f ++ ((fs.map serTF).flatten ++ t) := by
      simp [List.append_assoc]
    rw [List.length_cons, h1]
    simp only [parseTFs, parseTF_serTF, parseTFs_flatten fs t]

theorem parseRepo_serializeRepo (r : Repository) :
    parseRepo (serializeRepo r) = some r := by
  have h1 : serializeRepo r
      = r.created_at :: (serStr r.salt
          ++ (r.files.length :: ((r.files.map serTF).flatten ++ []))) := by
    simp [serializeRepo, List.append_assoc]
  rw [h1]
  simp only [parseRepo, parseStr_serStr, parseTFs_flatten]

/-- What `MemoryStorage::save_repository` writes when the repository's salt
is valid hex for a 16-byte value: `config.enc` holds the serialized
repository sealed under the key derived from the fixed string
`"placeholder"`, and `salt.key` holds the salt itself. -/
theorem memory_save_eval (r : Repository) (nonce b : List Nat)
    (hb : hexDecode r.salt = some b) (hlen : b.length = SALT_LEN) :
    MemoryStorage.save_repository r nonce
      = some (.ok (Crypto.encryptBytes
          { salt := b, key := pbkdf2_derive b "placeholder" } nonce
          (serializeRepo r), r.salt)) := by
  unfold MemoryStorage.save_repository
  rw [hb]
  dsimp only
  unfold Crypto.from_password_and_salt
  rw [if_pos hlen]
  rfl

/-- C10: for every repository whose salt field is valid hex encoding
exactly 16 bytes, `MemoryStorage::load_repository` after
`MemoryStorage::save_repository` returns the repository unchanged — and
neither function takes any user password: both derive the key from the
fixed string `"placeholder"`, so metadata persisted through this backend
is decryptable from the repository files alone. -/
theorem memory_storage_roundtrip (r : Repository) (nonce b enc : List Nat)
    (s2 : String)
    (hb : hexDecode r.salt = some b) (hlen : b.length = SALT_LEN)
    (hn : nonce.length = NONCE_LEN)
    (hsave : MemoryStorage.save_repository r nonce = some (.ok (enc, s2))) :
    MemoryStorage.load_repository (some enc) (some s2) = some (.ok r) := by
  rw [memory_save_eval r nonce b hb hlen] at hsave
  simp only [Option.some.injEq, Except.ok.injEq, Prod.mk.injEq] at hsave
  obtain ⟨henc, hs2⟩ := hsave
  subst henc
  subst hs2
  unfold MemoryStorage.load_repository MemoryStorage.get_salt
  dsimp only
  rw [hb]
  dsimp only
  unfold Crypto.from_password_and_salt
  rw [if_pos hlen]
  dsimp only
  rw [decrypt_encryptBytes _ nonce _ hn]
  dsimp only
  rw [parseRepo_serializeRepo]

theorem memory_storage_roundtrip_witness :
    MemoryStorage.load_repository
        (some (Crypto.encryptBytes cryptoPH n12 (serializeRepo c10_repo)))
        (some c8_salt_hex)
      = some (.ok c10_repo) :=
  memory_storage_roundtrip c10_repo n12 z16
    (Crypto.encryptBytes cryptoPH n12 (serializeRepo c10_repo)) c8_salt_hex
    (by rfl) (by rfl) (by rfl) (by rfl)

/-! ## C9 — dry-run restore and filesystem mutation -/

/-- Under `--dry-run` a loop iteration performs no filesystem mutation. -/
theorem restore_process_one_dry (crypto : Crypto) (o : RestoreOptions)
    (f : TrackedFile) (env : FileEnv) (hd : o.dry_run = true) :
    (restore_process_one crypto o f env).2 = [] := by
  unfold restore_process_one
  split
  · rfl
  · split
    · rfl
    · simp [hd]

/-- Under `--dry-run` the whole loop performs no filesystem mutation. -/
theorem restore_loop_dry (crypto : Crypto) (o : RestoreOptions)
    (hd : o.dry_run = true) :
    ∀ items : List (TrackedFile × FileEnv), (restore_loop crypto o items).2 = []
  | [] => rfl
  | (f, env) :: rest => by
    have h1 := restore_process_one_dry crypto o f env hd
    have h2 := restore_loop_dry crypto o hd rest
    simp [restore_loop, h1, h2]

/-- Under `--dry-run` the post-load stage performs no filesystem mutation. -/
theorem restore_post_load_dry (w : RestoreWorld) (o : RestoreOptions)
    (crypto : Crypto) (repository : Repository) (hd : o.dry_run = true) :
    (restore_post_load w o crypto repository).2 = [] := by
  unfold restore_post_load
  split
  · rfl
  · split
    · rfl
    · split
      · rfl
      · exact restore_loop_dry crypto o hd _

/-- The load stage mutates nothing except, in the SQLite variant, creating
the missing database file. -/
theorem restore_load_effects (w : RestoreWorld) (crypto : Crypto)
    (storage_type : String) :
    (restore_load w crypto storage_type).2 = []
    ∨ ((restore_load w crypto storage_type).2 = [Effect.createDb]
        ∧ storage_type = "sqlite") := by
  unfold restore_load
  split
  · next hsql =>
    split
    · exact Or.inl rfl
    · exact Or.inr ⟨rfl, hsql⟩
  · exact Or.inl rfl

/-- C9 (amended): with `dry_run` set, `restore_files` never creates,
overwrites or deletes any destination file, backup, or parent directory —
the only filesystem mutation it can perform is the SQLite backend creating
and initialising its missing `kitty.db` on open; in particular, with the
file-based storage marker the effect list is exactly empty. -/
theorem restore_dry_run_effects (w : RestoreWorld) (o : RestoreOptions)
    (res : Except KittyError (Option RestoreReport)) (effs : List Effect)
    (hd : o.dry_run = true)
    (hm : restore_files_model w o = some (res, effs)) :
    effs.all (fun e => e = Effect.createDb) = true
    ∧ (get_storage_type w.marker = .ok "file" → effs = []) := by
  unfold restore_files_model at hm
  split at hm
  · simp only [Option.some.injEq, Prod.mk.injEq] at hm
    obtain ⟨-, h2⟩ := hm
    subst h2
    exact ⟨rfl, fun _ => rfl⟩
  · split at hm
    · simp only [Option.some.injEq, Prod.mk.injEq] at hm
      obtain ⟨-, h2⟩ := hm
      subst h2
      exact ⟨rfl, fun _ => rfl⟩
    · rename_i storage_type hst
      split at hm
      · simp only [Option.some.injEq, Prod.mk.injEq] at hm
        obtain ⟨-, h2⟩ := hm
        subst h2
        exact ⟨rfl, fun _ => rfl⟩
      · split at hm
        · simp only [Option.some.injEq, Prod.mk.injEq] at hm
          obtain ⟨-, h2⟩ := hm
          subst h2
          exact ⟨rfl, fun _ => rfl⟩
        · split at hm
          · simp at hm
          · rename_i crypto hcr
            split at hm
            · rename_i e1 loadEffs hload
              simp only [Option.some.injEq, Prod.mk.injEq] at hm
              obtain ⟨-, h2⟩ := hm
              subst h2
              have heff : (restore_load w crypto storage_type).2 = loadEffs := by
                rw [hload]
              rcases restore_load_effects w crypto storage_type with hnil | ⟨hce, hsql⟩
              · have hl : loadEffs = [] := heff.symm.trans hnil
                exact ⟨by simp [hl], fun _ => hl⟩
              · have hl : loadEffs = [Effect.createDb] := heff.symm.trans hce
                refine ⟨by simp [hl], ?_⟩
                intro hfile
                rw [hst] at hfile
                injection hfile with hf
                exact absurd (hf ▸ hsql) (by decide)
            · rename_i repository loadEffs hload
              simp only [Option.some.injEq, Prod.mk.injEq] at hm
              obtain ⟨-, h2⟩ := hm
              subst h2
              have hp2 := restore_post_load_dry w o crypto repository hd
              rw [hp2, List.append_nil]
              have heff : (restore_load w crypto storage_type).2 = loadEffs := by
                rw [hload]
              rcases restore_load_effects w crypto storage_type with hnil | ⟨hce, hsql⟩
              · have hl : loadEffs = [] := heff.symm.trans hnil
                exact ⟨by simp [hl], fun _ => hl⟩
              · have hl : loadEffs = [Effect.createDb] := heff.symm.trans hce
                refine ⟨by simp [hl], ?_⟩
                intro hfile
                rw [hst] at hfile
                injection hfile with hf
                exact absurd (hf ▸ hsql) (by decide)

theorem restore_dry_run_effects_witness :
    (([] : List Effect).all (fun e => e = Effect.createDb) = true)
    ∧ (get_storage_type c8_world.marker = .ok "file" → ([] : List Effect) = []) :=
  restore_dry_run_effects c8_world c9_options_dry
    (.ok (some (RestoreReport.mk 3 0 1 2))) [] rfl (by rfl)

/-- C9 (counterexample to the claim as stated): a dry-run invocation of
`restore_files` against a repository whose `storage.type` marker says
`sqlite` while `kitty.db` does not exist yet DOES mutate the filesystem —
`SqliteStorage::new` creates and initialises the database file before the
dry-run check is ever reached (the call then fails with
`RepositoryNotFound` because the fresh database holds no repository
row). -/
theorem restore_dry_run_not_pure :
    c9_options.dry_run = true
    ∧ restore_files_model c9_world c9_options
        = some (.error KittyError.RepositoryNotFound, [Effect.createDb])
    ∧ ([Effect.createDb] : List Effect) ≠ [] :=
  ⟨rfl, by rfl, by decide⟩

/-- C5: contrary to the claim, `get_repository_salt` does NOT fail loudly in
every case where the salt cannot be located: with no `salt.key` file and a
`config.enc` of at least 32 bytes it silently returns the hard-coded
placeholder salt (64 zero characters, decoding to 32 zero bytes).  The
spec itself flags this as a bug to fix (§9, Open question). -/
theorem get_repository_salt_returns_placeholder :
    get_repository_salt none (some (List.replicate 32 0)) = .ok placeholderSalt
    ∧ exceptIsOk (get_repository_salt none (some (List.replicate 32 0))) = true
    ∧ hexDecode placeholderSalt = some (List.replicate 32 0) := by
  refine ⟨rfl, rfl, ?_⟩
  rfl

/-! ## C6 — `from_password_and_salt` panics off 16-byte salts -/

/-- C6: `Crypto::from_password_and_salt` completes exactly for salt slices
of length 16 (`copy_from_slice` into the `[u8; SALT_LEN]` array panics for
every other length, modelled as `none`; the Rust signature offers no error
return); in particular it panics on the 32-byte decode of the placeholder
salt that the salt-retrieval fallback can produce. -/
theorem from_password_and_salt_total_iff (pw : String) (salt : List Nat) :
    ((Crypto.from_password_and_salt pw salt).isSome = true ↔ salt.length = 16)
    ∧ Crypto.from_password_and_salt pw ((hexDecode placeholderSalt).getD []) = none := by
  constructor
  · unfold Crypto.from_password_and_salt
    by_cases hl : salt.length = SALT_LEN
    · rw [if_pos hl]
      exact iff_of_true rfl hl
    · rw [if_neg hl]
      exact iff_of_false (by simp) hl
  · rfl

/-! ## C4 — where `add_file` persists a new file's body -/

/-- C4 (failing-input evaluation): adding the untracked path `/b` to a
repository that already tracks one file appends a new record with the
fresh storage key `files/k1`, but the SQLite branch persists the encrypted
body under `repository.files[0].repo_path = "files/k0"` — the OLD record's
storage key — instead of the new record's key (`add.rs` lines 178-182,
despite the comment "Use the newly created repo_file_path"). -/
theorem add_file_sqlite_new_file_wrong_key :
    (add_file_meta c4_repo "/b" "h1" 5 "k1").2.1 = "files/k1"
    ∧ (((add_file_meta c4_repo "/b" "h1" 5 "k1").1.files.getD 1 default)).repo_path
        = "files/k1"
    ∧ existing_file_index c4_repo "/b" = none
    ∧ add_file_sqlite_body_key (add_file_meta c4_repo "/b" "h1" 5 "k1").1
        (existing_file_index c4_repo "/b") = "files/k0"
    ∧ "files/k0" ≠ "files/k1" := by
  refine ⟨rfl, rfl, ?_, rfl, ?_⟩ <;> decide

/-! ## C3 — re-adding a tracked path updates in place -/

/-- List-level behaviour of `add_file`'s metadata update when the path is
already tracked: the first matching record is updated in place (keeping
its `repo_path`), nothing is appended, and the `original_path` column is
unchanged. -/
theorem add_file_entry_found :
    ∀ (files : List TrackedFile) (p h fid : String) (now : Nat) (f : TrackedFile),
    (files.map TrackedFile.original_path).Nodup →
    f ∈ files → f.original_path = p →
    (add_file_entry files p h now fid).1.length = files.length
    ∧ (add_file_entry files p h now fid).2.1 = f.repo_path
    ∧ { f with last_updated := now, hash := h } ∈ (add_file_entry files p h now fid).1
    ∧ (add_file_entry files p h now fid).1.map TrackedFile.original_path
        = files.map TrackedFile.original_path
  | [], _, _, _, _, _, _, hf, _ => absurd hf (List.not_mem_nil _)
  | g :: rest, p, h, fid, now, f, hnd, hf, hp => by
    rw [List.map_cons, List.nodup_cons] at hnd
    by_cases hg : g.original_path = p
    · have hfg : f = g := by
        rcases List.mem_cons.mp hf with h1 | h1
        · exact h1
        · exfalso
          apply hnd.1
          rw [hg, ← hp]
          exact List.mem_map_of_mem TrackedFile.original_path h1
      subst hfg
      unfold add_file_entry
      rw [if_pos hg]
      refine ⟨rfl, rfl, List.mem_cons_self _ _, ?_⟩
      rfl
    · have hfr : f ∈ rest := by
        rcases List.mem_cons.mp hf with h1 | h1
        · exact absurd (h1 ▸ hp) hg
        · exact h1
      obtain ⟨ih1, ih2, ih3, ih4⟩ :=
        add_file_entry_found rest p h fid now f hnd.2 hfr hp
      unfold add_file_entry
      rw [if_neg hg]
      refine ⟨?_, ih2, List.mem_cons_of_mem g ih3, ?_⟩
      · simpa using ih1
      · simpa using ih4

/-- List-level behaviour of `add_file`'s metadata update when the path is
not yet tracked: a record with the fresh key is appended at the end. -/
theorem add_file_entry_not_found :
    ∀ (files : List TrackedFile) (p h fid : String) (now : Nat),
    p ∉ files.map TrackedFile.original_path →
    (add_file_entry files p h now fid).1 =
      files ++ [{ original_path := p, repo_path := "files/" ++ fid,
                  added_at := now, last_updated := now, hash := h }]
  | [], _, _, _, _, _ => rfl
  | g :: rest, p, h, fid, now, hnp => by
    rw [List.map_cons] at hnp
    have hg : ¬ g.original_path = p := fun he => hnp (he ▸ List.mem_cons_self _ _)
    have hrest : p ∉ rest.map TrackedFile.original_path :=
      fun hm => hnp (List.mem_cons_of_mem _ hm)
    unfold add_file_entry
    rw [if_neg hg]
    exact congrArg (List.cons g) (add_file_entry_not_found rest p h fid now hrest)

/-- C3: on a repository whose `original_path` column is duplicate-free,
re-adding an already-tracked path updates that record's `last_updated` and
`hash` in place, reuses its existing `repo_path` storage key for the body
write, and appends nothing, so the record count and the `original_path`
column are unchanged (hence still duplicate-free); and an add of a fresh
path keeps the column duplicate-free as well. -/
theorem add_file_update_in_place (repository : Repository) (p h fid : String)
    (now : Nat) (f : TrackedFile)
    (hnd : (repository.files.map TrackedFile.original_path).Nodup) :
    (f ∈ repository.files → f.original_path = p →
      (add_file_meta repository p h now fid).1.files.length = repository.files.length
      ∧ (add_file_meta repository p h now fid).2.1 = f.repo_path
      ∧ { f with last_updated := now, hash := h }
          ∈ (add_file_meta repository p h now fid).1.files
      ∧ (add_file_meta repository p h now fid).1.files.map TrackedFile.original_path
          = repository.files.map TrackedFile.original_path
      ∧ ((add_file_meta repository p h now fid).1.files.map
          TrackedFile.original_path).Nodup)
    ∧ (p ∉ repository.files.map TrackedFile.original_path →
      (add_file_meta repository p h now fid).1.files.map TrackedFile.original_path
          = repository.files.map TrackedFile.original_path ++ [p]
      ∧ ((add_file_meta repository p h now fid).1.files.map
          TrackedFile.original_path).Nodup) := by
  constructor
  · intro hf hp
    obtain ⟨h1, h2, h3, h4⟩ :=
      add_file_entry_found repository.files p h fid now f hnd hf hp
    exact ⟨h1, h2, h3, h4, h4 ▸ hnd⟩
  · intro hnp
    have he := add_file_entry_not_found repository.files p h fid now hnp
    have hmap : (add_file_meta repository p h now fid).1.files.map
        TrackedFile.original_path
        = repository.files.map TrackedFile.original_path ++ [p] := by
      show (add_file_entry repository.files p h now fid).1.map
        TrackedFile.original_path = _
      rw [he, List.map_append]
      rfl
    refine ⟨hmap, ?_⟩
    rw [hmap]
    rw [List.nodup_append]
    exact ⟨hnd, List.nodup_singleton p, by simpa using hnp⟩

theorem add_file_update_in_place_witness :
    (c4_file0 ∈ c4_repo.files → c4_file0.original_path = "/a" →
      (add_file_meta c4_repo "/a" "h2" 9 "k9").1.files.length = c4_repo.files.length
      ∧ (add_file_meta c4_repo "/a" "h2" 9 "k9").2.1 = c4_file0.repo_path
      ∧ { c4_file0 with last_updated := 9, hash := "h2" }
          ∈ (add_file_meta c4_repo "/a" "h2" 9 "k9").1.files
      ∧ (add_file_meta c4_repo "/a" "h2" 9 "k9").1.files.map TrackedFile.original_path
          = c4_repo.files.map TrackedFile.original_path
      ∧ ((add_file_meta c4_repo "/a" "h2" 9 "k9").1.files.map
          TrackedFile.original_path).Nodup)
    ∧ ("/a" ∉ c4_repo.files.map TrackedFile.original_path →
      (add_file_meta c4_repo "/a" "h2" 9 "k9").1.files.map TrackedFile.original_path
          = c4_repo.files.map TrackedFile.original_path ++ ["/a"]
      ∧ ((add_file_meta c4_repo "/a" "h2" 9 "k9").1.files.map
          TrackedFile.original_path).Nodup) :=
  add_file_update_in_place c4_repo "/a" "h2" "k9" 9 c4_file0 (by decide)

theorem decrypt_rejects_witness :
    (([] : List Nat).length < NONCE_LEN →
      Crypto.decrypt cryptoA [] = .error (KittyError.Decryption "Invalid ciphertext"))
    ∧ (Crypto.decrypt cryptoA [] = .ok [2] →
        ([] : List Nat) = [].take NONCE_LEN ++
          chacha_encrypt cryptoA.key ([].take NONCE_LEN) [2])
    ∧ (("a", z16) ≠ ("b", z16) →
        Crypto.decrypt cryptoB (Crypto.encryptBytes cryptoA n12 [1]) =
          .error (KittyError.Decryption "aead::Error"))
    ∧ (exceptIsOk (Crypto.decrypt cryptoA []) = false →
        isDecryptionErr (Crypto.decrypt cryptoA []) = true) :=
  decrypt_rejects "a" "b" z16 z16 cryptoA cryptoB n12 [1] [2] []
    (by rfl) (by rfl) (by rfl)

end Kitty
